import Mathlib

/-
Verification of the solid-squared-games engine.

The TypeScript sources are shallowly embedded below.  JavaScript arrays may
contain holes (`new Array(n)` produces only holes, and `Array.prototype.map`
skips holes), so an array is modelled as a `List (Option _)` in which `none`
stands for a hole / `undefined`.  Operations that would throw a `TypeError`
at runtime (indexing into `undefined`) return `Except.error ()`.
-/

namespace SquaredGames

variable {α β : Type}

/-- Cell values (`App.Types.tsx`, `CellContentSchema`): a string or a number.
Numbers are modelled as integers. -/
inductive CellContent : Type
  | str (s : String)
  | num (n : Int)
deriving DecidableEq

/-- A cell is the tuple `[possibilities, isFixed, coordinate]`
(`App.Types.tsx`, `CellSchema`, positions named by the `GameCell` enum);
a coordinate is the `[row, col]` pair (`Coordinate` enum). -/
structure Cell : Type where
  possibilities : List CellContent
  isFixed : Bool
  coordinate : Nat × Nat
deriving DecidableEq

/-- A JavaScript array with holes: slot `i` is `none` when the slot is a hole
or lies past the end of the array, mirroring `undefined`. -/
abbrev JSArr (α : Type) : Type := List (Option α)

/-- Reading `a[i]`: a hole and an out-of-range index both give `undefined`. -/
def jsGet (a : JSArr α) (i : Nat) : Option α :=
  (a[i]?).bind id

/-- JavaScript element assignment `a[i] = v`: in range the slot is replaced,
past the end the array is extended with holes. -/
def jsSet (a : JSArr α) (i : Nat) (v : α) : JSArr α :=
  if i < a.length then a.set i (some v)
  else a ++ List.replicate (i - a.length) none ++ [some v]

/-- `new Array(n)`: a sparse array of length `n` consisting only of holes. -/
def jsNewArr (n : Nat) : JSArr α :=
  List.replicate n none

/-- `Array.prototype.map`: the callback gets element and index; holes are
skipped by the callback and stay holes in the result. -/
def jsMapIdx (f : α → Nat → β) (a : JSArr α) : JSArr β :=
  a.enum.map (fun p => p.2.map (fun x => f x p.1))

/-- Game settings (`App.Types.tsx`, `gameSettingsSchema`). -/
structure GameSettings : Type where
  NAME : String
  CELLRESULTS : List CellContent
  MAXROW : Nat
  MAXCOL : Nat
deriving DecidableEq

/-- Binario's settings object (`Binario.tsx`). -/
def binarioGameSettings : GameSettings :=
  ⟨"Binario", [CellContent.num 0, CellContent.num 1], 12, 12⟩

/-- `isColumnCollection` (`App.helpers.tsx` 30-35): all column components
equal the first one; JS `every` is vacuously true on the empty array. -/
def isColumnCollection (collection : List (Nat × Nat)) : Bool :=
  let columnCoordinates := collection.map (fun c => c.2)
  columnCoordinates.all (fun val => columnCoordinates.head? == some val)

/-- `isRowCollection` (`App.helpers.tsx` 42-47). -/
def isRowCollection (collection : List (Nat × Nat)) : Bool :=
  let rowCoordinates := collection.map (fun c => c.1)
  rowCoordinates.all (fun val => rowCoordinates.head? == some val)

/-- `rowCollection` (`App.helpers.tsx` 55-57):
`[...Array(m).keys()].map(itm => [r, itm])`. -/
def rowCollection (r : Nat) (m : Nat) : List (Nat × Nat) :=
  (List.range m).map (fun itm => (r, itm))

/-- `colCollection` (`App.helpers.tsx` 58-60). -/
def colCollection (c : Nat) (n : Nat) : List (Nat × Nat) :=
  (List.range n).map (fun itm => (itm, c))

/-- `cellIsFound` (`App.helpers.tsx` 68-70). -/
def cellIsFound (cell : Cell) : Bool :=
  cell.possibilities.length == 1

/-- `cellCanNotBeChanged` (`App.helpers.tsx` 76-78). -/
def cellCanNotBeChanged (cell : Cell) : Bool :=
  cell.isFixed

/-- The game field (`App.Types.tsx`, `GameFieldSchema`): an array of rows. -/
abbrev GameField : Type := JSArr (JSArr Cell)

/-- `cellAt` (`App.helpers.tsx` 82-84): `g[row][col]`.  When `g[row]` is
`undefined` the inner access throws a `TypeError` (`Except.error ()`); an
out-of-range column on an existing row silently yields `undefined`. -/
def cellAt (c : Nat × Nat) (g : GameField) : Except Unit (Option Cell) :=
  match jsGet g c.1 with
  | none => Except.error ()
  | some row => Except.ok (jsGet row c.2)

/-- `setCellAt` (`App.helpers.tsx` 92-94): `g[row][col] = cell`; throws when
`g[row]` is `undefined`.  No fixed-cell or coordinate check is performed. -/
def setCellAt (c : Nat × Nat) (g : GameField) (cell : Cell) :
    Except Unit GameField :=
  match jsGet g c.1 with
  | none => Except.error ()
  | some row => Except.ok (jsSet g c.1 (jsSet row c.2 cell))

/-- `createCell` (`App.helpers.tsx` 96-102): bare tuple constructor. -/
def createCell (initialContent : List CellContent) (isFixed : Bool)
    (c : Nat × Nat) : Cell :=
  ⟨initialContent, isFixed, c⟩

/-- One step of the `content.forEach` loop in `initializeGame`
(`App.helpers.tsx` 143-156): a found cell is placed with `setCellAt`, any
other cell is only reported on the console and skipped. -/
def initStep (acc : GameField) (cell : Cell) : Except Unit GameField :=
  if cellIsFound cell then setCellAt cell.coordinate acc cell
  else Except.ok acc

/-- `initializeGame` (`App.helpers.tsx` 132-159).  The field is built with
`new Array(MAXROW).map(...)`; since `map` skips the holes of `new Array`,
the callbacks never run and the result keeps all its holes.  The initial
content cells are then placed by the `forEach` loop. -/
def initializeGame (content : List Cell) (settings : GameSettings) :
    Except Unit GameField :=
  let g : GameField :=
    jsMapIdx
      (fun (_row : Unit) colIndex =>
        jsMapIdx
          (fun (_col : Unit) rowIndex =>
            createCell settings.CELLRESULTS false (rowIndex, colIndex))
          (jsNewArr settings.MAXCOL : JSArr Unit))
      (jsNewArr settings.MAXROW : JSArr Unit)
  content.foldlM initStep g

/-- `CellContentSchema` (`App.Types.tsx` 84) as a predicate:
`z.union([z.string().length(1), z.number().max(9)])`.  There is no
lower bound and no integrality requirement on numbers. -/
def cellContentAccepted : CellContent → Bool
  | CellContent.str s => s.length == 1
  | CellContent.num n => decide (n ≤ 9)

/-- `CellPossibilitiesSchema` (`App.Types.tsx` 87) as a predicate:
`z.array(CellContentSchema).length(10)` accepts only arrays of exactly
ten elements. -/
def cellPossibilitiesAccepted (l : List CellContent) : Bool :=
  (l.length == 10) && l.all cellContentAccepted

/-- Modelled from the spec: the repository declares the rule types
(`GameRule`, `Rules` in `App.Types.tsx`) and a sample rule (`Binario.tsx`),
but contains no implementation of `runPropagation`; this result type follows
the spec's `Solved | Contradiction(coordinate) | Stalled`. -/
inductive PropagationResult : Type
  | Solved
  | Contradiction (c : Nat × Nat)
  | Stalled
deriving DecidableEq

/-- Total number of remaining candidates over a list of cells. -/
def totalPoss (g : List Cell) : Nat :=
  (g.map (fun c => c.possibilities.length)).sum

/-- Every cell of the list is found (possibility set a singleton). -/
def allFound (g : List Cell) : Bool :=
  g.all cellIsFound

/-- First cell whose possibility set has become empty, if any. -/
def findEmptyCell (g : List Cell) : Option Cell :=
  g.find? (fun c => c.possibilities.isEmpty)

/-- Modelled from the spec: a propagation step may only remove candidate
values from a cell's possibility set and must keep the fixed flag and the
stored coordinate. -/
def cellShrinks (c' c : Cell) : Prop :=
  c'.possibilities.Sublist c.possibilities ∧ c'.isFixed = c.isFixed ∧
    c'.coordinate = c.coordinate

/-- Modelled from the spec: a propagation pass (one application of all rules
over all relevant collections).  The repository leaves the elimination
attribution of rules unimplemented, so the pass is kept abstract; the spec's
termination argument relies only on the cells pointwise shrinking. -/
structure Eliminator : Type where
  pass : List Cell → List Cell
  shrink : ∀ g, List.Forall₂ cellShrinks (pass g) g

/-- Modelled from the spec: the fixed-point loop of the rule engine with an
explicit fuel parameter; `none` would mean the fuel ran out. -/
def runPropagationAux (pass : List Cell → List Cell) :
    Nat → List Cell → Option (PropagationResult × List Cell)
  | 0, _ => none
  | fuel + 1, g =>
    if allFound g then some (PropagationResult.Solved, g)
    else
      match findEmptyCell g with
      | some cell => some (PropagationResult.Contradiction cell.coordinate, g)
      | none =>
        if pass g = g then some (PropagationResult.Stalled, g)
        else runPropagationAux pass fuel (pass g)

/-- Modelled from the spec: `runPropagation` iterates passes until solved,
contradictory or stalled; a fuel of one more than the total candidate count
suffices because every non-final pass eliminates at least one candidate. -/
def runPropagation (e : Eliminator) (g : List Cell) :
    Option (PropagationResult × List Cell) :=
  runPropagationAux e.pass (totalPoss g + 1) g

/-- The identity pass: no rule eliminates anything. -/
def idElim : Eliminator :=
  ⟨fun g => g,
   fun _ => List.forall₂_same.mpr
     (fun c _ => ⟨List.Sublist.refl c.possibilities, rfl, rfl⟩)⟩

/-- A pass that eliminates every candidate of every cell. -/
def killElim : Eliminator :=
  ⟨fun g => g.map (fun c => ⟨[], c.isFixed, c.coordinate⟩),
   fun g => by
     induction g with
     | nil => exact List.Forall₂.nil
     | cons a l ih => exact List.Forall₂.cons ⟨List.nil_sublist _, rfl, rfl⟩ ih⟩

/-- A successful `jsGet` exposes the underlying slot. -/
theorem jsGet_eq_some {a : JSArr α} {i : Nat} {x : α} (h : jsGet a i = some x) :
    a[i]? = some (some x) := by
  unfold jsGet at h
  cases hg : a[i]? with
  | none => rw [hg] at h; simp at h
  | some o =>
    rw [hg] at h
    cases o with
    | none => simp at h
    | some y => simp at h; rw [h]

/-- A successful `jsGet` implies the index is in range. -/
theorem jsGet_lt_length {a : JSArr α} {i : Nat} {x : α} (h : jsGet a i = some x) :
    i < a.length := by
  rcases List.getElem?_eq_some.mp (jsGet_eq_some h) with ⟨hl, _⟩
  exact hl

/-- Reading back an in-range assignment. -/
theorem jsGet_jsSet_self (a : JSArr α) (i : Nat) (v : α) (h : i < a.length) :
    jsGet (jsSet a i v) i = some v := by
  unfold jsGet jsSet
  rw [if_pos h, List.getElem?_set_eq_of_lt (some v) h]
  rfl

/-- An in-range assignment does not disturb other slots. -/
theorem jsGet_jsSet_ne (a : JSArr α) (i j : Nat) (v : α) (h : i < a.length)
    (hij : i ≠ j) : jsGet (jsSet a i v) j = jsGet a j := by
  unfold jsGet jsSet
  rw [if_pos h, List.getElem?_set_ne hij]

/-- The `forEach` loop of `initializeGame` leaves the field untouched when no
content cell is found (has a singleton possibility list). -/
theorem foldlM_initStep_skips :
    ∀ (l : List Cell) (g : GameField),
      (∀ cell ∈ l, 1 < cell.possibilities.length) →
      l.foldlM initStep g = Except.ok g := by
  intro l
  induction l with
  | nil => intro g _; rfl
  | cons a t ih =>
    intro g h
    have ha : cellIsFound a = false := by
      have h1 := h a (List.mem_cons_self a t)
      simp only [cellIsFound, beq_eq_false_iff_ne]
      omega
    rw [List.foldlM_cons]
    have hstep : initStep g a = Except.ok g := by
      simp [initStep, ha]
    rw [hstep]
    exact ih g (fun cell hc => h cell (List.mem_cons_of_mem a hc))

/-- Claim C1: the claim says `initializeGame([], def)` yields a full
`MAXROW x MAXCOL` grid of unfixed cells carrying the whole possibility
domain.  In the code, `new Array(MAXROW).map(...)` maps over a sparse array
whose holes are skipped, so the callbacks never run: for the Binario
settings the returned game field is twelve holes containing no cell at
all. -/
theorem initializeGame_returns_no_cells :
    initializeGame [] binarioGameSettings =
      Except.ok (List.replicate 12 (none : Option (JSArr Cell))) := by
  rfl

/-- Claim C2: the claim says `grid[r][c].coordinate == (r, c)` holds for all
in-bounds positions after initialization and after every `setCellAt`.  After
`initializeGame([], binario)` the in-bounds position `(0, 0)` holds no cell
(reading it throws), and `setCellAt` stores a cell verbatim without checking
its stored coordinate, so position `(0, 0)` can end up holding coordinate
`(7, 7)`. -/
theorem coordinate_invariant_violated :
    (initializeGame [] binarioGameSettings).bind (fun g => cellAt (0, 0) g) =
        Except.error () ∧
      setCellAt (0, 0) [some [some (Cell.mk [CellContent.num 0] false (0, 0))]]
          (Cell.mk [CellContent.num 1] false (7, 7)) =
        Except.ok [some [some (Cell.mk [CellContent.num 1] false (7, 7))]] :=
  ⟨rfl, rfl⟩

/-- Claim C3 (amended): `setCellAt` performs no fixed-cell check.  Whenever
the addressed row exists, the call succeeds even if the cell currently
stored there is fixed, and the position afterwards holds the new cell. -/
theorem setCellAt_ignores_fixed :
    ∀ (g : GameField) (r c : Nat) (v old : Cell) (row : JSArr Cell),
      jsGet g r = some row → jsGet row c = some old → old.isFixed = true →
      ∃ g', setCellAt (r, c) g v = Except.ok g' ∧
        cellAt (r, c) g' = Except.ok (some v) := by
  intro g r c v old row hrow hold _hfix
  have hr : r < g.length := jsGet_lt_length hrow
  have hc : c < row.length := jsGet_lt_length hold
  refine ⟨jsSet g r (jsSet row c v), ?_, ?_⟩
  · simp [setCellAt, hrow]
  · simp [cellAt, jsGet_jsSet_self g r (jsSet row c v) hr,
      jsGet_jsSet_self row c v hc]

/-- Claim C3, witness: a concrete fixed cell is overwritten successfully. -/
theorem setCellAt_ignores_fixed_witness :
    ∃ g', setCellAt (0, 0)
          [some [some (Cell.mk [CellContent.num 0] true (0, 0))]]
          (Cell.mk [CellContent.num 1] true (0, 0)) = Except.ok g' ∧
        cellAt (0, 0) g' =
          Except.ok (some (Cell.mk [CellContent.num 1] true (0, 0))) :=
  setCellAt_ignores_fixed _ 0 0 _ (Cell.mk [CellContent.num 0] true (0, 0))
    [some (Cell.mk [CellContent.num 0] true (0, 0))] rfl rfl rfl

/-- Claim C3, counterexample: the cell at `(0, 0)` is fixed and the new cell
differs in content, yet `setCellAt` succeeds and the grid changes — it never
fails with any error for fixed cells. -/
theorem setCellAt_overwrites_fixed_cell :
    setCellAt (0, 0) [some [some (Cell.mk [CellContent.num 0] true (0, 0))]]
        (Cell.mk [CellContent.num 1] true (0, 0)) =
      Except.ok [some [some (Cell.mk [CellContent.num 1] true (0, 0))]] ∧
    Cell.mk [CellContent.num 1] true (0, 0) ≠
      Cell.mk [CellContent.num 0] true (0, 0) :=
  ⟨rfl, by decide⟩

/-- Claim C5 (amended): an initial cell whose possibility list has more than
one element is skipped (only a console error is printed); `initializeGame`
does not fail on its account and returns the same field as for the empty
content list. -/
theorem initializeGame_skips_incomplete :
    ∀ (content : List Cell) (settings : GameSettings),
      (∀ cell ∈ content, 1 < cell.possibilities.length) →
      initializeGame content settings = initializeGame [] settings := by
  intro content settings h
  simp only [initializeGame]
  rw [foldlM_initStep_skips content _ h]
  rfl

/-- Claim C5, witness: a two-possibility initial cell is silently skipped. -/
theorem initializeGame_skips_incomplete_witness :
    initializeGame [Cell.mk [CellContent.num 0, CellContent.num 1] false (0, 0)]
        binarioGameSettings =
      initializeGame [] binarioGameSettings :=
  initializeGame_skips_incomplete _ _ (by decide)

/-- Claim C5, counterexample: with an underdetermined initial cell the call
returns `Except.ok` — no `IncompleteInitialCellError` (no error at all) is
surfaced to the caller, the cell is simply ignored. -/
theorem initializeGame_accepts_incomplete :
    initializeGame [Cell.mk [CellContent.num 0, CellContent.num 1] false (3, 3)]
        binarioGameSettings =
      Except.ok (List.replicate 12 (none : Option (JSArr Cell))) := by
  rfl

/-- Claim C6 (amended): `createCell` performs no validation whatsoever; it
always returns the tuple of its three arguments. -/
theorem createCell_returns_components :
    ∀ (p : List CellContent) (f : Bool) (c : Nat × Nat),
      createCell p f c = Cell.mk p f c :=
  fun _ _ _ => rfl

/-- Claim C6, counterexample: a fixed cell with two duplicate possibilities
is constructed without any `InvalidCellError`. -/
theorem createCell_accepts_invalid :
    createCell [CellContent.num 0, CellContent.num 0] true (0, 0) =
      Cell.mk [CellContent.num 0, CellContent.num 0] true (0, 0) ∧
    ([CellContent.num 0, CellContent.num 0] : List CellContent).length ≠ 1 ∧
    ¬ ([CellContent.num 0, CellContent.num 0] : List CellContent).Nodup :=
  ⟨rfl, by decide, by decide⟩

/-- Claim C9: the claim says the schema caps possibility domains at ten
values (at most) and restricts numeric contents to non-negative integers
at most nine, making Binario's `[0, 1]` legal.  The zod schema
`z.array(...).length(10)` in fact accepts only arrays of exactly ten
elements, so Binario's own two-value domain is rejected, while
`z.number().max(9)` accepts negative numbers. -/
theorem schemas_reject_binario_domain :
    cellPossibilitiesAccepted binarioGameSettings.CELLRESULTS = false ∧
    cellContentAccepted (CellContent.num (-3)) = true ∧
    cellPossibilitiesAccepted (List.replicate 10 (CellContent.num 0)) = true :=
  ⟨by decide, by decide, by decide⟩

/-- Claim C8 (amended): `cellAt` performs no bounds check at all.  When the
addressed row exists it returns whatever `row[col]` holds (`undefined` for an
out-of-range column, with no failure); when the row itself is missing the
access throws a `TypeError` — there is no `OutOfBoundsError` anywhere. -/
theorem cellAt_unchecked :
    ∀ (g : GameField) (r c : Nat),
      (∀ row, jsGet g r = some row → cellAt (r, c) g = Except.ok (jsGet row c)) ∧
      (jsGet g r = none → cellAt (r, c) g = Except.error ()) := by
  intro g r c
  constructor
  · intro row hrow
    simp [cellAt, hrow]
  · intro hrow
    simp [cellAt, hrow]

/-- Claim C8, witness: an in-bounds read returns the stored slot. -/
theorem cellAt_unchecked_witness :
    cellAt (0, 0) [some [some (Cell.mk [CellContent.num 5] false (0, 0))]] =
      Except.ok (jsGet [some (Cell.mk [CellContent.num 5] false (0, 0))] 0) :=
  (cellAt_unchecked [some [some (Cell.mk [CellContent.num 5] false (0, 0))]] 0 0).1
    [some (Cell.mk [CellContent.num 5] false (0, 0))] rfl

/-- Claim C8, counterexample: on a one-by-one grid the out-of-bounds
coordinate `(0, 5)` does not fail at all — `cellAt` silently returns
`undefined` instead of an `OutOfBoundsError`. -/
theorem cellAt_out_of_bounds_no_error :
    cellAt (0, 5) [some [some (Cell.mk [CellContent.num 0] false (0, 0))]] =
      Except.ok none :=
  rfl

/-- Claim C10: on a grid whose addressed row exists, `setCellAt` stores the
given cell so that `cellAt` reads it back exactly, and every other position
reads the same as before the call. -/
theorem setCellAt_cellAt_frame :
    ∀ (g : GameField) (r c : Nat) (v : Cell) (row : JSArr Cell),
      jsGet g r = some row → c < row.length →
      ∃ g', setCellAt (r, c) g v = Except.ok g' ∧
        cellAt (r, c) g' = Except.ok (some v) ∧
        ∀ r' c', ¬(r' = r ∧ c' = c) →
          cellAt (r', c') g' = cellAt (r', c') g := by
  intro g r c v row hrow hc
  have hr : r < g.length := jsGet_lt_length hrow
  refine ⟨jsSet g r (jsSet row c v), ?_, ?_, ?_⟩
  · simp [setCellAt, hrow]
  · simp [cellAt, jsGet_jsSet_self g r (jsSet row c v) hr,
      jsGet_jsSet_self row c v hc]
  · intro r' c' hne
    by_cases hr' : r' = r
    · subst hr'
      have hc' : c ≠ c' := fun h => hne ⟨rfl, h.symm⟩
      simp [cellAt, jsGet_jsSet_self g r' (jsSet row c v) hr, hrow,
        jsGet_jsSet_ne row c c' v hc hc']
    · simp [cellAt, jsGet_jsSet_ne g r r' (jsSet row c v) hr
        (fun h => hr' h.symm)]

/-- Claim C10, witness: updating `(0, 1)` on a concrete two-cell row. -/
theorem setCellAt_cellAt_frame_witness :
    ∃ g', setCellAt (0, 1)
          [some [some (Cell.mk [CellContent.num 0] false (0, 0)),
            some (Cell.mk [CellContent.num 1] false (0, 1))]]
          (Cell.mk [CellContent.num 0] false (0, 1)) = Except.ok g' ∧
        cellAt (0, 1) g' =
          Except.ok (some (Cell.mk [CellContent.num 0] false (0, 1))) ∧
        ∀ r' c', ¬(r' = 0 ∧ c' = 1) →
          cellAt (r', c') g' = cellAt (r', c')
            [some [some (Cell.mk [CellContent.num 0] false (0, 0)),
              some (Cell.mk [CellContent.num 1] false (0, 1))]] :=
  setCellAt_cellAt_frame _ 0 1 _
    [some (Cell.mk [CellContent.num 0] false (0, 0)),
      some (Cell.mk [CellContent.num 1] false (0, 1))] rfl (by decide)

/-- The row components of `rowCollection r m` are all `r`. -/
theorem rowCollection_map_fst (r m : Nat) :
    (rowCollection r m).map (fun p => p.1) = List.replicate m r := by
  simp only [rowCollection, List.map_map]
  rw [show ((fun p : Nat × Nat => p.1) ∘ fun itm => (r, itm)) = fun _ => r from rfl]
  rw [List.map_const', List.length_range]

/-- The column components of `rowCollection r m` are `0 .. m-1`. -/
theorem rowCollection_map_snd (r m : Nat) :
    (rowCollection r m).map (fun p => p.2) = List.range m := by
  simp [rowCollection, List.map_map, Function.comp]

/-- Claim C7: `isRowCollection` accepts every `rowCollection r m`;
`isColumnCollection` rejects it except in the degenerate one-column case
`m = 1`; and the two generators produce exactly the ordered coordinate
sequences `(r, 0) .. (r, m-1)` and `(0, c) .. (n-1, c)`. -/
theorem rowCollection_classification :
    ∀ (r m c n : Nat), 1 ≤ m →
      isRowCollection (rowCollection r m) = true ∧
      (isColumnCollection (rowCollection r m) = false ↔ m ≠ 1) ∧
      (rowCollection r m).length = m ∧
      (∀ i, i < m → (rowCollection r m)[i]? = some (r, i)) ∧
      (colCollection c n).length = n ∧
      (∀ i, i < n → (colCollection c n)[i]? = some (i, c)) := by
  intro r m c n hm
  obtain ⟨k, rfl⟩ : ∃ k, m = k + 1 := ⟨m - 1, by omega⟩
  refine ⟨?_, ?_, ?_, ?_, ?_, ?_⟩
  · simp only [isRowCollection, rowCollection_map_fst]
    rw [List.all_eq_true]
    intro x hx
    rw [List.eq_of_mem_replicate hx]
    simp [List.replicate_succ]
  · simp only [isColumnCollection, rowCollection_map_snd]
    cases k with
    | zero => simp [List.range_succ]
    | succ k' =>
      constructor
      · intro _
        omega
      · intro _
        rw [Bool.eq_false_iff]
        intro hall
        have h1 : (1 : Nat) ∈ List.range (k' + 1 + 1) := List.mem_range.mpr (by omega)
        have h2 := List.all_eq_true.mp hall 1 h1
        rw [List.range_succ_eq_map] at h2
        simp at h2
  · simp [rowCollection]
  · intro i hi
    simp [rowCollection, List.getElem?_map, List.getElem?_range hi]
  · simp [colCollection]
  · intro i hi
    simp [colCollection, List.getElem?_map, List.getElem?_range hi]

/-- Claim C7, witness: concrete classification of a three-cell row. -/
theorem rowCollection_classification_witness :
    isRowCollection (rowCollection 2 3) = true ∧
    isColumnCollection (rowCollection 2 3) = false :=
  ⟨(rowCollection_classification 2 3 0 0 (by decide)).1,
    ((rowCollection_classification 2 3 0 0 (by decide)).2.1).mpr (by decide)⟩

/-- A shrinking pass never increases the total candidate count. -/
theorem forall₂_shrinks_totalPoss_le :
    ∀ {g' g : List Cell}, List.Forall₂ cellShrinks g' g →
      totalPoss g' ≤ totalPoss g := by
  intro g' g h
  induction h with
  | nil => exact Nat.le_refl _
  | cons hab _ ih =>
    have := hab.1.length_le
    simp only [totalPoss, List.map_cons, List.sum_cons] at ih ⊢
    omega

/-- A shrinking pass that changes the grid strictly decreases the total
candidate count. -/
theorem forall₂_shrinks_ne_lt :
    ∀ {g' g : List Cell}, List.Forall₂ cellShrinks g' g → g' ≠ g →
      totalPoss g' < totalPoss g := by
  intro g' g h hne
  induction h with
  | nil => exact absurd rfl hne
  | @cons a' a l' l hab htail ih =>
    by_cases ha : a' = a
    · subst ha
      have hltail : l' ≠ l := fun hh => hne (by rw [hh])
      have hlt := ih hltail
      simp only [totalPoss, List.map_cons, List.sum_cons] at hlt ⊢
      omega
    · have hlen : a'.possibilities.length < a.possibilities.length := by
        rcases hab with ⟨hsub, hf, hco⟩
        rcases Nat.lt_or_ge a'.possibilities.length a.possibilities.length with
          hlt | hge
        · exact hlt
        · exfalso
          have heq' : a'.possibilities = a.possibilities :=
            hsub.eq_of_length (Nat.le_antisymm hsub.length_le hge)
          apply ha
          cases a'
          cases a
          simp_all
      have htl := forall₂_shrinks_totalPoss_le htail
      simp only [totalPoss, List.map_cons, List.sum_cons] at htl ⊢
      omega

/-- Cells all drawn from a domain of size `D` contribute at most
`D * cell count` candidates in total. -/
theorem totalPoss_le_mul :
    ∀ {g : List Cell} {D : Nat},
      (∀ cell ∈ g, cell.possibilities.length ≤ D) →
      totalPoss g ≤ D * g.length := by
  intro g D h
  induction g with
  | nil => simp [totalPoss]
  | cons a l ih =>
    have ha := h a (List.mem_cons_self a l)
    have hl := ih (fun cell hc => h cell (List.mem_cons_of_mem a hc))
    simp only [totalPoss, List.map_cons, List.sum_cons, List.length_cons,
      Nat.mul_succ] at hl ⊢
    omega

/-- A fully found grid has exactly one candidate per cell. -/
theorem allFound_totalPoss :
    ∀ {g : List Cell}, allFound g = true → totalPoss g = g.length := by
  intro g h
  induction g with
  | nil => rfl
  | cons a l ih =>
    simp only [allFound, List.all_cons, Bool.and_eq_true] at h
    have ha : a.possibilities.length = 1 := by
      have := h.1
      simpa [cellIsFound] using this
    have hl := ih (by simp [allFound, h.2])
    simp only [totalPoss, List.map_cons, List.sum_cons, List.length_cons] at hl ⊢
    omega

/-- A grid with no empty cell has at least one candidate per cell. -/
theorem findEmptyCell_none_ge :
    ∀ {g : List Cell}, findEmptyCell g = none → g.length ≤ totalPoss g := by
  intro g h
  have h' := List.find?_eq_none.mp h
  clear h
  induction g with
  | nil => exact Nat.le_refl _
  | cons a l ih =>
    have ha : a.possibilities ≠ [] := by
      have := h' a (List.mem_cons_self a l)
      simpa [List.isEmpty_iff] using this
    have hlen : 1 ≤ a.possibilities.length := by
      cases hp : a.possibilities with
      | nil => exact absurd hp ha
      | cons x t => simp
    have hl := ih (fun cell hc => h' cell (List.mem_cons_of_mem a hc))
    simp only [totalPoss, List.map_cons, List.sum_cons, List.length_cons] at hl ⊢
    omega

/-- With enough fuel the loop always reaches one of the three outcomes and
only ever shrinks the grid. -/
theorem runPropagationAux_spec
    (pass : List Cell → List Cell)
    (hshrink : ∀ g, List.Forall₂ cellShrinks (pass g) g) :
    ∀ (fuel : Nat) (g : List Cell), totalPoss g < fuel →
      ∃ r g', runPropagationAux pass fuel g = some (r, g') ∧
        totalPoss g' ≤ totalPoss g ∧ g'.length = g.length ∧
        (r = PropagationResult.Solved → allFound g' = true) ∧
        (r = PropagationResult.Stalled → findEmptyCell g' = none) := by
  intro fuel
  induction fuel with
  | zero => intro g h; omega
  | succ n ih =>
    intro g hg
    by_cases h1 : allFound g = true
    · refine ⟨PropagationResult.Solved, g, ?_, Nat.le_refl _, rfl, fun _ => h1, ?_⟩
      · simp [runPropagationAux, h1]
      · intro h
        exact PropagationResult.noConfusion h
    · cases hfe : findEmptyCell g with
      | some cell =>
        refine ⟨PropagationResult.Contradiction cell.coordinate, g, ?_,
          Nat.le_refl _, rfl, ?_, ?_⟩
        · simp [runPropagationAux, h1, hfe]
        · intro h
          exact PropagationResult.noConfusion h
        · intro h
          exact PropagationResult.noConfusion h
      | none =>
        by_cases h2 : pass g = g
        · refine ⟨PropagationResult.Stalled, g, ?_, Nat.le_refl _, rfl, ?_, ?_⟩
          · simp [runPropagationAux, h1, hfe, h2]
          · intro h
            exact PropagationResult.noConfusion h
          · intro _
            exact hfe
        · have hlt := forall₂_shrinks_ne_lt (hshrink g) h2
          obtain ⟨r, g', heq, hle, hlen, hsol, hst⟩ := ih (pass g) (by omega)
          refine ⟨r, g', ?_, by omega, ?_, hsol, hst⟩
          · simp [runPropagationAux, h1, hfe, h2, heq]
          · rw [hlen, (hshrink g).length_eq]

/-- Claim C4 (amended): the modelled `runPropagation` always terminates with
one of the three spec outcomes, its total candidate eliminations are bounded
by `D * cell count` for a domain bound `D`, and by `(D - 1) * cell count`
whenever the outcome is `Solved` or `Stalled` (a `Contradiction` run may
exceed the latter by emptying a cell). -/
theorem runPropagation_terminates_bound :
    ∀ (e : Eliminator) (g : List Cell) (D : Nat),
      (∀ cell ∈ g, cell.possibilities.length ≤ D) →
      ∃ r g', runPropagation e g = some (r, g') ∧
        (r = PropagationResult.Solved ∨
          (∃ co, r = PropagationResult.Contradiction co) ∨
          r = PropagationResult.Stalled) ∧
        totalPoss g - totalPoss g' ≤ D * g.length ∧
        ((r = PropagationResult.Solved ∨ r = PropagationResult.Stalled) →
          totalPoss g - totalPoss g' ≤ (D - 1) * g.length) := by
  intro e g D hD
  obtain ⟨r, g', heq, hle, hlen, hsol, hst⟩ :=
    runPropagationAux_spec e.pass e.shrink (totalPoss g + 1) g
      (Nat.lt_succ_self _)
  have hbound : totalPoss g ≤ D * g.length := totalPoss_le_mul hD
  refine ⟨r, g', heq, ?_, by omega, ?_⟩
  · cases r with
    | Solved => exact Or.inl rfl
    | Contradiction co => exact Or.inr (Or.inl ⟨co, rfl⟩)
    | Stalled => exact Or.inr (Or.inr rfl)
  · intro hcase
    have hg' : g.length ≤ totalPoss g' := by
      cases hcase with
      | inl hs =>
        have h1 := allFound_totalPoss (hsol hs)
        omega
      | inr hs =>
        have h1 := findEmptyCell_none_ge (hst hs)
        omega
    have h1 : (D - 1) * g.length = D * g.length - g.length := by
      rw [Nat.sub_mul, Nat.one_mul]
    omega

/-- Claim C4, witness: the rule-free (identity) eliminator on a one-cell
Binario grid satisfies the amended statement. -/
theorem runPropagation_terminates_bound_witness :
    ∃ r g', runPropagation idElim
          [Cell.mk [CellContent.num 0, CellContent.num 1] false (0, 0)] =
            some (r, g') ∧
        (r = PropagationResult.Solved ∨
          (∃ co, r = PropagationResult.Contradiction co) ∨
          r = PropagationResult.Stalled) ∧
        totalPoss [Cell.mk [CellContent.num 0, CellContent.num 1] false (0, 0)] -
            totalPoss g' ≤
          2 * [Cell.mk [CellContent.num 0, CellContent.num 1] false (0, 0)].length ∧
        ((r = PropagationResult.Solved ∨ r = PropagationResult.Stalled) →
          totalPoss
              [Cell.mk [CellContent.num 0, CellContent.num 1] false (0, 0)] -
              totalPoss g' ≤
            (2 - 1) *
              [Cell.mk [CellContent.num 0, CellContent.num 1] false (0, 0)].length) :=
  runPropagation_terminates_bound idElim _ 2 (by decide)

/-- Claim C4, counterexample: a shrinking pass that empties the single cell
of a one-cell grid with the two-value domain makes `runPropagation` report a
contradiction after two eliminations, exceeding the claimed bound
`(D - 1) * cell count = 1`. -/
theorem runPropagation_exceeds_claimed_bound :
    runPropagation killElim
        [Cell.mk [CellContent.num 0, CellContent.num 1] false (0, 0)] =
      some (PropagationResult.Contradiction (0, 0), [Cell.mk [] false (0, 0)]) ∧
    ([Cell.mk [CellContent.num 0, CellContent.num 1] false (0, 0)].all
        (fun cell => decide (cell.possibilities.length ≤ 2))) = true ∧
    (2 - 1) *
        [Cell.mk [CellContent.num 0, CellContent.num 1] false (0, 0)].length <
      totalPoss [Cell.mk [CellContent.num 0, CellContent.num 1] false (0, 0)] -
        totalPoss [Cell.mk [] false (0, 0)] :=
  ⟨rfl, by decide, by decide⟩

end SquaredGames
